import Mathlib

/-!
Verification of the streaming telemetry aggregation and derived-metrics
engine of the `sagrada` repository against its natural-language
specification.

The embedded code is:
* `updateReading`, `getMinuteKey`, `calculateRateArray` and the seeding /
  chart-data paths of the `useHistory` hook
  (`web/src/pages/Dashboard.jsx` / `hooks/useHistory.js`);
* `formatRate` and `calculateRateFromHistory`
  (`web/src/utils/rateCalculation.js`);
* `calculateEnergyFlow` (`web/src/utils/energyCalculation.js`).

Numeric values are modelled exactly, over the rationals, with an explicit
`nan` constructor so that the JavaScript behaviour on non-finite samples
(`NaN` propagation through `+`, `/`, `Math.min`, `Math.max`, `isNaN`, and
comparisons) is representable.  Timestamps are modelled as natural numbers
of milliseconds; the minute key `"YYYY-MM-DDTHH:MM"` obtained by slicing an
ISO string is modelled as the minute number `ts / 60000`, which preserves
both equality and ordering of keys.
-/

namespace Sagrada

/-- A JavaScript number as used by the telemetry pipeline: either a finite
value (modelled exactly as a rational) or `NaN`.  (Infinities never arise
in the embedded fragment: `Math.min()`/`Math.max()` of an empty spread and
division by zero are unreachable behind the non-empty-buffer guard.) -/
inductive JVal where
  | nan : JVal
  | num (q : ℚ) : JVal
deriving DecidableEq, Repr

namespace JVal

/-- JavaScript `+` on numbers: `NaN` propagates. -/
def jadd : JVal → JVal → JVal
  | num a, num b => num (a + b)
  | _, _ => nan

/-- JavaScript division of a number by a (positive) count: `NaN` propagates. -/
def jdivNat : JVal → ℕ → JVal
  | num a, n => num (a / (n : ℚ))
  | nan, _ => nan

/-- JavaScript division by a nonzero rational constant: `NaN` propagates. -/
def jdivQ : JVal → ℚ → JVal
  | num a, c => num (a / c)
  | nan, _ => nan

/-- JavaScript subtraction: `NaN` propagates. -/
def jsub : JVal → JVal → JVal
  | num a, num b => num (a - b)
  | _, _ => nan

/-- JavaScript `Math.min` of two numbers: returns `NaN` if either argument is `NaN`. -/
def jmin : JVal → JVal → JVal
  | num a, num b => num (min a b)
  | _, _ => nan

/-- JavaScript `Math.max` of two numbers: returns `NaN` if either argument is `NaN`. -/
def jmax : JVal → JVal → JVal
  | num a, num b => num (max a b)
  | _, _ => nan

/-- JavaScript `<=` on numbers: any comparison involving `NaN` is `false`. -/
def jle : JVal → JVal → Prop
  | num a, num b => a ≤ b
  | _, _ => False

instance (a b : JVal) : Decidable (jle a b) := by
  cases a <;> cases b <;> simp [jle] <;> infer_instance

/-- JavaScript `isNaN`. -/
def isNan : JVal → Bool
  | nan => true
  | num _ => false

/-- Summation `buffer.readings.reduce((a, b) => a + b, 0)`. -/
def jsum (l : List JVal) : JVal := l.foldl jadd (num 0)

/-- JavaScript `Math.min(...readings)` over a non-empty list (the `[]` case is
unreachable behind the `readings.length > 0` guard; JavaScript would give
`Infinity` there, which the `JVal` model leaves out). -/
def jminList : List JVal → JVal
  | [] => nan
  | x :: xs => xs.foldl jmin x

/-- JavaScript `Math.max(...readings)` over a non-empty list (same remark as
`jminList`). -/
def jmaxList : List JVal → JVal
  | [] => nan
  | x :: xs => xs.foldl jmax x

end JVal

open JVal

/-- Constant `HISTORY_MINUTES` — number of historical minute buckets kept
(not including the current minute). -/
def HISTORY_MINUTES : ℕ := 59

/-- Constant `RATE_LOOKBACK_MINUTES` — how many minutes back the rate comparison
looks. -/
def RATE_LOOKBACK_MINUTES : ℕ := 5

/-- Function `getMinuteKey(timestamp)`: the ISO-string slice `"YYYY-MM-DDTHH:MM"`,
modelled as the minute number of a millisecond timestamp.  Two timestamps
get the same key iff they lie in the same minute, and keys compare in
chronological order, exactly as the sliced strings do lexicographically. -/
def getMinuteKey (ts : ℕ) : ℕ := ts / 60000

/-- One point of minute-aggregated data: `{timestamp, avg, min, max}`.
`timestamp` is in milliseconds (a finalized bucket carries
`minuteKey + ':00.000Z'`, i.e. `minuteKey * 60000`). -/
structure Bucket where
  timestamp : ℕ
  avg : JVal
  min : JVal
  max : JVal
deriving DecidableEq, Repr

/-- The current-minute buffer for one location:
`{ readings: number[], minuteKey }`. -/
structure Buffer where
  readings : List JVal
  minuteKey : ℕ
deriving DecidableEq, Repr

/-- The `useHistory` state for one location: the bounded minute history,
the current-minute buffer (`currentMinuteRef`, absent until initialised),
and the latest raw reading (`current`, as `(timestamp, value)`). -/
structure HistState where
  history : List Bucket
  buffer : Option Buffer
  current : Option (ℕ × JVal)
deriving DecidableEq, Repr

/-- Finalization of a completed minute inside `updateReading`:
`avg = sum / count`, `min`/`max` over the same readings, timestamped at
the buffer's minute key. -/
def finalizeBuffer (buf : Buffer) : Bucket :=
  { timestamp := buf.minuteKey * 60000
    avg := jdivNat (jsum buf.readings) buf.readings.length
    min := jminList buf.readings
    max := jmaxList buf.readings }

/-- Function `updateReading(location, {timestamp, value})` for one location, as a
pure state transformer.  Mirrors `useHistory`'s `updateReading`: update
`current`, initialise the buffer if absent, then either finalize the open
bucket (on a minute-key change with a non-empty buffer, appending the
aggregated point and shifting the oldest entry off when the history
exceeds `HISTORY_MINUTES`) or accumulate the sample. -/
def updateReading (st : HistState) (ts : ℕ) (value : JVal) : HistState :=
  let readingMinuteKey := getMinuteKey ts
  let buf := st.buffer.getD { readings := [], minuteKey := readingMinuteKey }
  if readingMinuteKey ≠ buf.minuteKey ∧ buf.readings ≠ [] then
    let updated := st.history ++ [finalizeBuffer buf]
    { history := if HISTORY_MINUTES < updated.length then updated.tail else updated
      buffer := some { readings := [value], minuteKey := readingMinuteKey }
      current := some (ts, value) }
  else
    { history := st.history
      buffer := some { readings := buf.readings ++ [value], minuteKey := readingMinuteKey }
      current := some (ts, value) }

/-- Ingesting a whole reading sequence (oldest first). -/
def runReadings (st : HistState) (rs : List (ℕ × JVal)) : HistState :=
  rs.foldl (fun s r => updateReading s r.1 r.2) st

/-- The per-location seeding path of `fetchAllLocations`: all but the last
API point become history (capped at the most recent `HISTORY_MINUTES`),
the last point becomes the initial `current`, and the minute buffer is
initialised empty at the wall-clock minute `nowKey`. -/
def seedLocation (locationData : List Bucket) (nowKey : ℕ) : HistState :=
  if locationData.length > 0 then
    let historyData := locationData.dropLast
    { history := if historyData.length > HISTORY_MINUTES
        then historyData.drop (historyData.length - HISTORY_MINUTES)
        else historyData
      buffer := some { readings := [], minuteKey := nowKey }
      current := (locationData.getLast?).map (fun p => (p.timestamp, p.avg)) }
  else
    { history := []
      buffer := some { readings := [], minuteKey := nowKey }
      current := none }

/-- The `data` memo of `useHistory` for one location: the history points
followed by the current point, whose `avg` is the smoothed (buffered)
value when the current-minute buffer is non-empty and the raw current
value otherwise, and whose `min`/`max` are the raw current value. -/
def dataPoints (st : HistState) : List Bucket :=
  match st.current with
  | none => st.history
  | some (ts, v) =>
      let smoothed :=
        match st.buffer with
        | some buf =>
            if buf.readings.length > 0 then jdivNat (jsum buf.readings) buf.readings.length
            else v
        | none => v
      st.history ++ [{ timestamp := ts, avg := smoothed, min := v, max := v }]

/-- Function `calculateRateArray(points, location)`, acting on the `avg` projection
of the points (the only field the function reads; a point whose `avg` is
`null`/`undefined` is `none`).  Each entry compares the point to the one
`RATE_LOOKBACK_MINUTES` earlier: `(point.avg - pastPoint.avg) /
(RATE_LOOKBACK_MINUTES / 60)`, and is `none` for the first
`RATE_LOOKBACK_MINUTES` indices or when either endpoint's `avg` is
missing.  With fewer than `RATE_LOOKBACK_MINUTES + 1` points the whole
array is `none`s of the same length. -/
def calculateRateArray (avgs : List (Option JVal)) : List (Option JVal) :=
  if avgs.length < RATE_LOOKBACK_MINUTES + 1 then
    avgs.map (fun _ => none)
  else
    avgs.mapIdx (fun i a =>
      if i < RATE_LOOKBACK_MINUTES then none
      else
        match a with
        | none => none
        | some cur =>
            match avgs.getD (i - RATE_LOOKBACK_MINUTES) none with
            | none => none
            | some past =>
                some (jdivQ (jsub cur past) ((RATE_LOOKBACK_MINUTES : ℚ) / 60)))

/-- Function `calculateRateFromHistory(historyData, currentTemp, compareMinutesAgo)`
from `rateCalculation.js`: compares the current reading against the point
`compareMinutesAgo` from the end of the history, returning `none` on
insufficient data, a missing/`NaN` current value, or a missing endpoint. -/
def calculateRateFromHistory (historyData : List (Option JVal))
    (currentTemp : Option JVal) (compareMinutesAgo : ℕ) : Option JVal :=
  if historyData.length < compareMinutesAgo then none
  else
    match currentTemp with
    | none => none
    | some JVal.nan => none
    | some (JVal.num cur) =>
        match historyData.getD (historyData.length - compareMinutesAgo) none with
        | none => none
        | some past =>
            some (jdivQ (jsub (JVal.num cur) past) ((compareMinutesAgo : ℚ) / 60))

/-- The specification's description of `rate_at(points, index, lookback = 5)`,
written from the spec's words for comparison with `calculateRateArray`:
`(points[index].avg - points[index - lookback].avg) / (lookback / 60)`
in units per hour, and no value (not zero) if `index < lookback` or
either endpoint's value is missing. -/
def rateAtSpec (avgs : List (Option JVal)) (i : ℕ) : Option JVal :=
  if i < RATE_LOOKBACK_MINUTES then none
  else
    match avgs.getD i none, avgs.getD (i - RATE_LOOKBACK_MINUTES) none with
    | some cur, some past =>
        some (jdivQ (jsub cur past) ((RATE_LOOKBACK_MINUTES : ℚ) / 60))
    | _, _ => none

/-- Which of `formatRate`'s three rendered shapes a result takes:
the neutral "stable" text, the `±X.X°/hr` per-hour form, or the
`±X.XX°/min` per-minute form. -/
inductive RateForm where
  | stable : RateForm
  | perHour : RateForm
  | perMinute : RateForm
deriving DecidableEq, Repr

/-- The observable content of `formatRate`'s return value: the shape of
the text, the numeric magnitude it displays (`none` for "stable";
the per-hour rate, or the per-minute rate `rate/60`, before `toFixed`
rounding), whether the arrow points up, and the CSS class. -/
structure RateFmt where
  form : RateForm
  shown : Option ℚ
  arrowUp : Option Bool
  className : String
deriving DecidableEq, Repr

/-- Function `formatRate(ratePerHour, isHeating)` from `rateCalculation.js`:
absent or `NaN` → "stable"; `|rate| < 0.5` → "stable"; `|rate| > 10` →
per-minute form displaying `rate/60`; otherwise per-hour form displaying
`rate`.  The arrow/class follow the sign of the rate. -/
def formatRate (ratePerHour : Option JVal) : RateFmt :=
  match ratePerHour with
  | none => ⟨RateForm.stable, none, none, "stable"⟩
  | some JVal.nan => ⟨RateForm.stable, none, none, "stable"⟩
  | some (JVal.num q) =>
      if |q| < 1/2 then ⟨RateForm.stable, none, none, "stable"⟩
      else
        let className := if q > 0 then "heating" else "cooling"
        if |q| > 10 then
          ⟨RateForm.perMinute, some (q / 60), some (decide (q > 0)), className⟩
        else
          ⟨RateForm.perHour, some q, some (decide (q > 0)), className⟩

/-! ### Thermal energy-flow model (`energyCalculation.js`) -/

/-- Constant `TANK_THERMAL_MASS_J_PER_C`. -/
def TANK_THERMAL_MASS_J_PER_C : ℚ := 316880

/-- Constant `TANK_LOSS_COEFFICIENT_W_PER_C`. -/
def TANK_LOSS_COEFFICIENT_W_PER_C : ℚ := 27/10

/-- Constant `FLOOR_TO_ROOM_UA_W_PER_F`. -/
def FLOOR_TO_ROOM_UA_W_PER_F : ℚ := 6

/-- Constant `BUILDING_UA_W_PER_F`. -/
def BUILDING_UA_W_PER_F : ℚ := 32

/-- Constant `DEFAULT_HEATER_POWER_W`. -/
def DEFAULT_HEATER_POWER_W : ℚ := 1400

/-- The `result` object of `calculateEnergyFlow`.  Fields that the code
initialises to `null` and may leave absent are `Option`s; `heaterInput`
is initialised to `0` and is always a number. -/
structure EnergyFlow where
  heaterInput : ℚ
  tankAccumulation : Option ℚ
  tankLoss : Option ℚ
  floorOutput : Option ℚ
  buildingLoss : Option ℚ
  waterToFloor : Option ℚ
  tankToAmbientDeltaF : Option ℚ
  floorToRoomDeltaF : Option ℚ
  roomToOutsideDeltaF : Option ℚ
  heaterOn : Bool
  pumpOn : Bool
  valid : Bool
  maxCapacityDeltaF : Option ℚ
  isKeepingUp : Option Bool
  bottleneckWatts : Option ℚ
deriving DecidableEq, Repr

/-- Function `calculateEnergyFlow({tankTempF, floorTempF, roomTempF, outsideTempF,
tankRateFPerHr, heaterOn, pumpOn, heaterPower})`.  Returns the initial
(all-absent, `valid = false`) result unless both tank and room
temperatures are present; otherwise computes each quantity exactly as the
source does, leaving a field `none` when one of its inputs is missing. -/
def calculateEnergyFlow (tankTempF floorTempF roomTempF outsideTempF : Option ℚ)
    (tankRateFPerHr : Option ℚ) (heaterOn pumpOn : Bool)
    (heaterPower : ℚ) : EnergyFlow :=
  match tankTempF, roomTempF with
  | some tank, some room =>
      let heaterInput : ℚ := if heaterOn then heaterPower else 0
      let tankToAmbientDeltaF := tank - room
      let tankToAmbientDeltaC := tankToAmbientDeltaF / (9/5)
      let tankLoss := TANK_LOSS_COEFFICIENT_W_PER_C * tankToAmbientDeltaC
      let tankAccumulation := tankRateFPerHr.map
        (fun r => TANK_THERMAL_MASS_J_PER_C * ((r / (9/5)) / 3600))
      let floorToRoomDeltaF := floorTempF.map (fun fl => fl - room)
      let floorOutput := floorToRoomDeltaF.map
        (fun d => if FLOOR_TO_ROOM_UA_W_PER_F * d < 0 then 0 else FLOOR_TO_ROOM_UA_W_PER_F * d)
      let roomToOutsideDeltaF := outsideTempF.map (fun o => room - o)
      let buildingLoss := roomToOutsideDeltaF.map (fun d => BUILDING_UA_W_PER_F * d)
      let waterToFloor :=
        if pumpOn then
          tankAccumulation.map (fun acc =>
            let w := heaterInput - acc - tankLoss
            if w < 0 then 0 else w)
        else some 0
      let maxCapacityDeltaF := heaterPower / BUILDING_UA_W_PER_F
      let isKeepingUp := buildingLoss.map (fun bl => decide (bl ≤ heaterPower))
      let bottleneckWatts :=
        match floorTempF with
        | some _ => floorOutput
        | none => none
      { heaterInput := heaterInput
        tankAccumulation := tankAccumulation
        tankLoss := some tankLoss
        floorOutput := floorOutput
        buildingLoss := buildingLoss
        waterToFloor := waterToFloor
        tankToAmbientDeltaF := some tankToAmbientDeltaF
        floorToRoomDeltaF := floorToRoomDeltaF
        roomToOutsideDeltaF := roomToOutsideDeltaF
        heaterOn := heaterOn
        pumpOn := pumpOn
        valid := true
        maxCapacityDeltaF := some maxCapacityDeltaF
        isKeepingUp := isKeepingUp
        bottleneckWatts := bottleneckWatts }
  | _, _ =>
      { heaterInput := 0
        tankAccumulation := none
        tankLoss := none
        floorOutput := none
        buildingLoss := none
        waterToFloor := none
        tankToAmbientDeltaF := none
        floorToRoomDeltaF := none
        roomToOutsideDeltaF := none
        heaterOn := heaterOn
        pumpOn := pumpOn
        valid := false
        maxCapacityDeltaF := none
        isKeepingUp := none
        bottleneckWatts := none }

/-! ### Basic lemmas about `updateReading` -/

/-- Behaviour of `updateReading` on a minute-boundary crossing with a non-empty buffer:
finalize, append (shifting off the oldest entry when over capacity), and
open a fresh buffer holding exactly the new sample. -/
theorem updateReading_finalize (st : HistState) (buf : Buffer) (ts : ℕ) (v : JVal)
    (hb : st.buffer = some buf) (hk : getMinuteKey ts ≠ buf.minuteKey)
    (hr : buf.readings ≠ []) :
    updateReading st ts v =
      { history :=
          if HISTORY_MINUTES < (st.history ++ [finalizeBuffer buf]).length
          then (st.history ++ [finalizeBuffer buf]).tail
          else st.history ++ [finalizeBuffer buf]
        buffer := some { readings := [v], minuteKey := getMinuteKey ts }
        current := some (ts, v) } := by
  simp only [updateReading, hb, Option.getD_some]
  rw [if_pos ⟨hk, hr⟩]

/-- Behaviour of `updateReading` when the minute key matches or the buffer is empty:
accumulate the sample and re-key the buffer; history is untouched. -/
theorem updateReading_accumulate (st : HistState) (buf : Buffer) (ts : ℕ) (v : JVal)
    (hb : st.buffer = some buf)
    (h : getMinuteKey ts = buf.minuteKey ∨ buf.readings = []) :
    updateReading st ts v =
      { history := st.history
        buffer := some { readings := buf.readings ++ [v], minuteKey := getMinuteKey ts }
        current := some (ts, v) } := by
  simp only [updateReading, hb, Option.getD_some]
  rw [if_neg]
  rintro ⟨hk, hr⟩
  rcases h with h | h
  · exact hk h
  · exact hr h

/-- Behaviour of `updateReading` with no buffer yet: initialise one holding this
sample; history is untouched. -/
theorem updateReading_noBuffer (st : HistState) (ts : ℕ) (v : JVal)
    (hb : st.buffer = none) :
    updateReading st ts v =
      { history := st.history
        buffer := some { readings := [v], minuteKey := getMinuteKey ts }
        current := some (ts, v) } := by
  simp [updateReading, hb]

/-- One ingest step keeps the history within capacity. -/
theorem updateReading_length_le (st : HistState) (ts : ℕ) (v : JVal)
    (h : st.history.length ≤ HISTORY_MINUTES) :
    (updateReading st ts v).history.length ≤ HISTORY_MINUTES := by
  cases hb : st.buffer with
  | none => rw [updateReading_noBuffer st ts v hb]; exact h
  | some buf =>
      by_cases hk : getMinuteKey ts ≠ buf.minuteKey ∧ buf.readings ≠ []
      · rw [updateReading_finalize st buf ts v hb hk.1 hk.2]
        by_cases hlen : HISTORY_MINUTES < (st.history ++ [finalizeBuffer buf]).length
        · simp only [hlen, if_true]
          rw [List.length_tail]
          simp only [List.length_append, List.length_singleton]
          omega
        · simp only [hlen, if_false]
          omega
      · rw [updateReading_accumulate st buf ts v hb
          (by rcases not_and_or.mp hk with h | h
              · exact Or.inl (not_not.mp h)
              · exact Or.inr (not_not.mp h))]
        exact h

/-- Ingesting any sequence keeps the history within capacity. -/
theorem runReadings_length_le (rs : List (ℕ × JVal)) (st : HistState)
    (h : st.history.length ≤ HISTORY_MINUTES) :
    (runReadings st rs).history.length ≤ HISTORY_MINUTES := by
  induction rs generalizing st with
  | nil => exact h
  | cons r rs ih =>
      exact ih (updateReading st r.1 r.2) (updateReading_length_le st r.1 r.2 h)

/-- Seeding produces a history within capacity. -/
theorem seedLocation_length_le (locationData : List Bucket) (nowKey : ℕ) :
    (seedLocation locationData nowKey).history.length ≤ HISTORY_MINUTES := by
  unfold seedLocation
  split
  · simp only
    split
    · rw [List.length_drop]; omega
    · omega
  · simp

/-- C2: For every sequence of ingested readings and every seed
initialization, the length of a channel's history never exceeds the
capacity (`HISTORY_MINUTES = 59` buckets); when a bucket finalization
would push a full history over capacity the oldest entry is evicted, and
seeded histories are trimmed to the most recent `HISTORY_MINUTES`
entries. -/
theorem c2_bounded_history (locationData : List Bucket) (nowKey : ℕ)
    (rs : List (ℕ × JVal)) (st : HistState) (buf : Buffer) (ts : ℕ) (v : JVal) :
    (runReadings (seedLocation locationData nowKey) rs).history.length ≤ HISTORY_MINUTES ∧
    (st.buffer = some buf → getMinuteKey ts ≠ buf.minuteKey → buf.readings ≠ [] →
      st.history.length = HISTORY_MINUTES →
      (updateReading st ts v).history = st.history.tail ++ [finalizeBuffer buf]) ∧
    (HISTORY_MINUTES < locationData.dropLast.length →
      (seedLocation locationData nowKey).history =
        locationData.dropLast.drop (locationData.dropLast.length - HISTORY_MINUTES)) := by
  refine ⟨runReadings_length_le rs _ (seedLocation_length_le locationData nowKey), ?_, ?_⟩
  · intro hb hk hr hfull
    rw [updateReading_finalize st buf ts v hb hk hr]
    have hne : st.history ≠ [] := by
      intro h0
      rw [h0] at hfull
      simp [HISTORY_MINUTES] at hfull
    have hlen : HISTORY_MINUTES < (st.history ++ [finalizeBuffer buf]).length := by
      simp only [List.length_append, List.length_singleton, hfull]
      omega
    simp only [hlen, if_true]
    exact List.tail_append_singleton_of_ne_nil hne
  · intro htrim
    have hpos : locationData.length > 0 := by
      rcases locationData with _ | ⟨b, l⟩
      · simp at htrim
      · simp
    unfold seedLocation
    rw [if_pos hpos]
    simp only [if_pos htrim]

/-- Witness for C2 at concrete inputs: an empty seed followed by one
reading stays within capacity; a full (59-entry) history evicts its
oldest entry on finalization; a 61-point seed is trimmed. -/
theorem c2_bounded_history_witness :
    (runReadings (seedLocation [] 0) [(0, JVal.num 1)]).history.length ≤ HISTORY_MINUTES ∧
    (updateReading
        { history := List.replicate 59 { timestamp := 0, avg := JVal.num 0, min := JVal.num 0, max := JVal.num 0 }
          buffer := some { readings := [JVal.num 1], minuteKey := 0 }
          current := none } 60000 (JVal.num 2)).history =
      (List.replicate 59
        ({ timestamp := 0, avg := JVal.num 0, min := JVal.num 0, max := JVal.num 0 } : Bucket)).tail
        ++ [finalizeBuffer { readings := [JVal.num 1], minuteKey := 0 }] ∧
    (seedLocation
        (List.replicate 61 { timestamp := 0, avg := JVal.num 0, min := JVal.num 0, max := JVal.num 0 }) 0).history =
      (List.replicate 61
        ({ timestamp := 0, avg := JVal.num 0, min := JVal.num 0, max := JVal.num 0 } : Bucket)).dropLast.drop
        ((List.replicate 61
          ({ timestamp := 0, avg := JVal.num 0, min := JVal.num 0, max := JVal.num 0 } : Bucket)).dropLast.length
          - HISTORY_MINUTES) := by
  have h1 := c2_bounded_history [] 0 [(0, JVal.num 1)]
    { history := List.replicate 59 { timestamp := 0, avg := JVal.num 0, min := JVal.num 0, max := JVal.num 0 }
      buffer := some { readings := [JVal.num 1], minuteKey := 0 }
      current := none }
    { readings := [JVal.num 1], minuteKey := 0 } 60000 (JVal.num 2)
  have h2 := c2_bounded_history
    (List.replicate 61 { timestamp := 0, avg := JVal.num 0, min := JVal.num 0, max := JVal.num 0 }) 0 []
    { history := [], buffer := none, current := none }
    { readings := [], minuteKey := 0 } 0 (JVal.num 0)
  refine ⟨h1.1, h1.2.1 rfl (by decide) (by decide) (by simp [HISTORY_MINUTES]), h2.2.2 (by simp [HISTORY_MINUTES])⟩

/-! ### Finite-sample evaluation of the bucket statistics -/

theorem foldl_jadd_map_num (qs : List ℚ) (a : ℚ) :
    (qs.map JVal.num).foldl jadd (JVal.num a) = JVal.num (a + qs.sum) := by
  induction qs generalizing a with
  | nil => simp [jadd]
  | cons q qs ih =>
      simp only [List.map_cons, List.foldl_cons, jadd, List.sum_cons, ih]
      ring_nf

theorem jsum_map_num (qs : List ℚ) : jsum (qs.map JVal.num) = JVal.num qs.sum := by
  simpa using foldl_jadd_map_num qs 0

theorem foldl_jmin_map_num (qs : List ℚ) (a : ℚ) :
    (qs.map JVal.num).foldl jmin (JVal.num a) = JVal.num (qs.foldl min a) := by
  induction qs generalizing a with
  | nil => simp
  | cons q qs ih => simp only [List.map_cons, List.foldl_cons, jmin, ih]

theorem foldl_jmax_map_num (qs : List ℚ) (a : ℚ) :
    (qs.map JVal.num).foldl jmax (JVal.num a) = JVal.num (qs.foldl max a) := by
  induction qs generalizing a with
  | nil => simp
  | cons q qs ih => simp only [List.map_cons, List.foldl_cons, jmax, ih]

theorem foldl_min_le_init (qs : List ℚ) (a : ℚ) : qs.foldl min a ≤ a := by
  induction qs generalizing a with
  | nil => simp
  | cons q qs ih => exact le_trans (ih (min a q)) (min_le_left a q)

theorem foldl_min_le_mem (qs : List ℚ) (a x : ℚ) (hx : x ∈ qs) : qs.foldl min a ≤ x := by
  induction qs generalizing a with
  | nil => cases hx
  | cons q qs ih =>
      rcases List.mem_cons.mp hx with rfl | hx
      · exact le_trans (foldl_min_le_init qs (min a x)) (min_le_right a x)
      · exact ih (min a q) hx

theorem foldl_min_mem (qs : List ℚ) (a : ℚ) : qs.foldl min a = a ∨ qs.foldl min a ∈ qs := by
  induction qs generalizing a with
  | nil => exact Or.inl rfl
  | cons q qs ih =>
      rcases ih (min a q) with h | h
      · rcases min_choice a q with hm | hm
        · exact Or.inl (by rw [List.foldl_cons, h, hm])
        · exact Or.inr (by rw [List.foldl_cons, h, hm]; exact List.mem_cons_self q qs)
      · exact Or.inr (List.mem_cons_of_mem q h)

theorem init_le_foldl_max (qs : List ℚ) (a : ℚ) : a ≤ qs.foldl max a := by
  induction qs generalizing a with
  | nil => simp
  | cons q qs ih => exact le_trans (le_max_left a q) (ih (max a q))

theorem mem_le_foldl_max (qs : List ℚ) (a x : ℚ) (hx : x ∈ qs) : x ≤ qs.foldl max a := by
  induction qs generalizing a with
  | nil => cases hx
  | cons q qs ih =>
      rcases List.mem_cons.mp hx with rfl | hx
      · exact le_trans (le_max_right a x) (init_le_foldl_max qs (max a x))
      · exact ih (max a q) hx

theorem foldl_max_mem (qs : List ℚ) (a : ℚ) : qs.foldl max a = a ∨ qs.foldl max a ∈ qs := by
  induction qs generalizing a with
  | nil => exact Or.inl rfl
  | cons q qs ih =>
      rcases ih (max a q) with h | h
      · rcases max_choice a q with hm | hm
        · exact Or.inl (by rw [List.foldl_cons, h, hm])
        · exact Or.inr (by rw [List.foldl_cons, h, hm]; exact List.mem_cons_self q qs)
      · exact Or.inr (List.mem_cons_of_mem q h)

theorem length_mul_le_sum (qs : List ℚ) (m : ℚ) (h : ∀ x ∈ qs, m ≤ x) :
    (qs.length : ℚ) * m ≤ qs.sum := by
  induction qs with
  | nil => simp
  | cons q qs ih =>
      have hq := h q (List.mem_cons_self q qs)
      have ih' := ih (fun x hx => h x (List.mem_cons_of_mem q hx))
      simp only [List.length_cons, List.sum_cons]
      push_cast
      linarith

theorem sum_le_length_mul (qs : List ℚ) (M : ℚ) (h : ∀ x ∈ qs, x ≤ M) :
    qs.sum ≤ (qs.length : ℚ) * M := by
  induction qs with
  | nil => simp
  | cons q qs ih =>
      have hq := h q (List.mem_cons_self q qs)
      have ih' := ih (fun x hx => h x (List.mem_cons_of_mem q hx))
      simp only [List.length_cons, List.sum_cons]
      push_cast
      linarith

/-- Evaluation of `finalizeBuffer` on a non-empty buffer of finite
samples. -/
theorem finalizeBuffer_finite (mk : ℕ) (q : ℚ) (qtl : List ℚ) :
    finalizeBuffer { readings := (q :: qtl).map JVal.num, minuteKey := mk } =
      { timestamp := mk * 60000
        avg := JVal.num ((q :: qtl).sum / (((q :: qtl).length : ℕ) : ℚ))
        min := JVal.num (qtl.foldl min q)
        max := JVal.num (qtl.foldl max q) } := by
  have h1 : jsum ((q :: qtl).map JVal.num) = JVal.num ((q :: qtl).sum) := jsum_map_num _
  unfold finalizeBuffer
  rw [h1, List.length_map]
  simp only [List.map_cons, jminList, jmaxList, foldl_jmin_map_num, foldl_jmax_map_num, jdivNat]

/-- C3: a reading with a different minute key arriving while samples are
accumulated finalizes the open bucket — `avg` is the arithmetic mean of
the accumulated samples, `min`/`max` bound the same sample set and are
attained in it, `bucket_start` is the open bucket's minute key — appends
it as the last history entry, and opens a new bucket keyed by the new
minute key seeded with exactly this one sample. -/
theorem c3_finalize_semantics (st : HistState) (buf : Buffer) (ts : ℕ) (v : JVal)
    (qs : List ℚ) (hb : st.buffer = some buf) (hq : buf.readings = qs.map JVal.num)
    (hne : qs ≠ []) (hk : getMinuteKey ts ≠ buf.minuteKey) :
    (updateReading st ts v).history.getLast? = some (finalizeBuffer buf) ∧
    (finalizeBuffer buf).timestamp = buf.minuteKey * 60000 ∧
    (finalizeBuffer buf).avg = JVal.num (qs.sum / (qs.length : ℚ)) ∧
    (∃ m M : ℚ, (finalizeBuffer buf).min = JVal.num m ∧
      (finalizeBuffer buf).max = JVal.num M ∧ m ∈ qs ∧ M ∈ qs ∧
      ∀ x ∈ qs, m ≤ x ∧ x ≤ M) ∧
    (updateReading st ts v).buffer =
      some { readings := [v], minuteKey := getMinuteKey ts } := by
  obtain ⟨q, qtl, rfl⟩ : ∃ q qtl, qs = q :: qtl := by
    cases qs with
    | nil => exact absurd rfl hne
    | cons q qtl => exact ⟨q, qtl, rfl⟩
  have hbt : buf = { readings := (q :: qtl).map JVal.num, minuteKey := buf.minuteKey } := by
    cases buf
    simpa using hq
  have hrne : buf.readings ≠ [] := by rw [hq]; simp
  have hupd := updateReading_finalize st buf ts v hb hk hrne
  refine ⟨?_, ?_, ?_, ?_, ?_⟩
  · rw [hupd]
    by_cases hlen : HISTORY_MINUTES < (st.history ++ [finalizeBuffer buf]).length
    · simp only [hlen, if_true]
      have hne2 : st.history ≠ [] := by
        intro h0
        rw [h0] at hlen
        simp [HISTORY_MINUTES] at hlen
      rw [List.tail_append_singleton_of_ne_nil hne2]
      exact List.getLast?_concat _
    · simp only [hlen, if_false]
      exact List.getLast?_concat _
  · rfl
  · rw [hbt, finalizeBuffer_finite]
  · refine ⟨qtl.foldl min q, qtl.foldl max q, ?_, ?_, ?_, ?_, ?_⟩
    · rw [hbt, finalizeBuffer_finite]
    · rw [hbt, finalizeBuffer_finite]
    · rcases foldl_min_mem qtl q with h | h
      · rw [h]; exact List.mem_cons_self q qtl
      · exact List.mem_cons_of_mem q h
    · rcases foldl_max_mem qtl q with h | h
      · rw [h]; exact List.mem_cons_self q qtl
      · exact List.mem_cons_of_mem q h
    · intro x hx
      rcases List.mem_cons.mp hx with rfl | hx
      · exact ⟨foldl_min_le_init qtl x, init_le_foldl_max qtl x⟩
      · exact ⟨foldl_min_le_mem qtl q x hx, mem_le_foldl_max qtl q x hx⟩
  · rw [hupd]

/-- Witness for C3: the spec's concrete instance — samples
`[10, 12, 14]` in one minute, finalized by a reading in the next minute,
give `avg = 12`, `min = 10`, `max = 14`, timestamped at the open
bucket's minute key. -/
theorem c3_finalize_semantics_witness :
    (updateReading
        { history := []
          buffer := some { readings := [JVal.num 10, JVal.num 12, JVal.num 14], minuteKey := 0 }
          current := none } 60000 (JVal.num 5)).history.getLast? =
      some (finalizeBuffer { readings := [JVal.num 10, JVal.num 12, JVal.num 14], minuteKey := 0 }) ∧
    finalizeBuffer { readings := [JVal.num 10, JVal.num 12, JVal.num 14], minuteKey := 0 } =
      { timestamp := 0, avg := JVal.num 12, min := JVal.num 10, max := JVal.num 14 } ∧
    (updateReading
        { history := []
          buffer := some { readings := [JVal.num 10, JVal.num 12, JVal.num 14], minuteKey := 0 }
          current := none } 60000 (JVal.num 5)).buffer =
      some { readings := [JVal.num 5], minuteKey := 1 } := by
  have h := c3_finalize_semantics
    { history := []
      buffer := some { readings := [JVal.num 10, JVal.num 12, JVal.num 14], minuteKey := 0 }
      current := none }
    { readings := [JVal.num 10, JVal.num 12, JVal.num 14], minuteKey := 0 }
    60000 (JVal.num 5) [10, 12, 14] rfl rfl (by decide) (by decide)
  refine ⟨h.1, ?_, h.2.2.2.2⟩
  norm_num [finalizeBuffer, jsum, jadd, jdivNat, jminList, jmaxList, jmin, jmax,
    List.foldl, Bucket.mk.injEq]

/-- The bucket appended by a finalization is the last entry of the new
history, whether or not the oldest entry was evicted. -/
theorem getLast?_trim (l : List Bucket) (b : Bucket) :
    (if HISTORY_MINUTES < (l ++ [b]).length then (l ++ [b]).tail
     else l ++ [b]).getLast? = some b := by
  split
  · rcases l with _ | ⟨x, xs⟩
    · rename_i hlen
      simp [HISTORY_MINUTES] at hlen
    · rw [List.tail_append_singleton_of_ne_nil (by simp)]
      exact List.getLast?_concat _
  · exact List.getLast?_concat _

/-- C10 counterexample: an ingested `NaN` sample (which `updateReading`
does not filter out) produces a finalized bucket whose statistics are all
`NaN`, and `NaN <= NaN` is false in JavaScript — so a bucket appended by
ingestion need not satisfy `min <= avg <= max`. -/
theorem c10_counterexample :
    (updateReading
        { history := [], buffer := some { readings := [JVal.nan], minuteKey := 0 }, current := none }
        60000 (JVal.num 5)).history =
      [{ timestamp := 0, avg := JVal.nan, min := JVal.nan, max := JVal.nan }] ∧
    ¬ jle ({ timestamp := 0, avg := JVal.nan, min := JVal.nan, max := JVal.nan } : Bucket).min
        ({ timestamp := 0, avg := JVal.nan, min := JVal.nan, max := JVal.nan } : Bucket).avg := by
  exact ⟨by decide, by decide⟩

/-- C10 (amended): a bucket is only ever finalized from a non-empty
sample buffer — a minute-boundary crossing with zero accumulated samples
appends nothing, so every bucket appended by ingestion summarises at
least one sample — and whenever all of the open bucket's samples are
finite the finalized bucket satisfies `min <= avg <= max`.  (A non-finite
sample, which ingestion does not drop, instead yields all-`NaN`
statistics.) -/
theorem c10_nonempty_finalization (st : HistState) (buf : Buffer) (ts : ℕ) (v : JVal)
    (hb : st.buffer = some buf) :
    (buf.readings = [] → (updateReading st ts v).history = st.history) ∧
    ((updateReading st ts v).history ≠ st.history →
      buf.readings ≠ [] ∧ getMinuteKey ts ≠ buf.minuteKey ∧
      (updateReading st ts v).history.getLast? = some (finalizeBuffer buf)) ∧
    (∀ qs : List ℚ, buf.readings = qs.map JVal.num → qs ≠ [] →
      jle (finalizeBuffer buf).min (finalizeBuffer buf).avg ∧
      jle (finalizeBuffer buf).avg (finalizeBuffer buf).max) := by
  refine ⟨?_, ?_, ?_⟩
  · intro hr
    rw [updateReading_accumulate st buf ts v hb (Or.inr hr)]
  · intro hch
    by_cases hc : getMinuteKey ts ≠ buf.minuteKey ∧ buf.readings ≠ []
    · refine ⟨hc.2, hc.1, ?_⟩
      rw [updateReading_finalize st buf ts v hb hc.1 hc.2]
      exact getLast?_trim st.history (finalizeBuffer buf)
    · exfalso
      apply hch
      rcases not_and_or.mp hc with h | h
      · rw [updateReading_accumulate st buf ts v hb (Or.inl (not_not.mp h))]
      · rw [updateReading_accumulate st buf ts v hb (Or.inr (not_not.mp h))]
  · rintro ⟨⟩ hq hne
    case nil => exact absurd rfl hne
    case cons q qtl =>
      have hbt : buf = { readings := (q :: qtl).map JVal.num, minuteKey := buf.minuteKey } := by
        cases buf
        simpa using hq
      rw [hbt, finalizeBuffer_finite]
      have hlen : (0 : ℚ) < ((q :: qtl).length : ℚ) := by
        simp only [List.length_cons]
        positivity
      have hminmem : ∀ x ∈ q :: qtl, qtl.foldl min q ≤ x := by
        intro x hx
        rcases List.mem_cons.mp hx with rfl | hx
        · exact foldl_min_le_init qtl x
        · exact foldl_min_le_mem qtl q x hx
      have hmaxmem : ∀ x ∈ q :: qtl, x ≤ qtl.foldl max q := by
        intro x hx
        rcases List.mem_cons.mp hx with rfl | hx
        · exact init_le_foldl_max qtl x
        · exact mem_le_foldl_max qtl q x hx
      constructor
      · show qtl.foldl min q ≤ (q :: qtl).sum / (((q :: qtl).length : ℕ) : ℚ)
        rw [le_div_iff₀ hlen]
        calc qtl.foldl min q * (((q :: qtl).length : ℕ) : ℚ)
            = (((q :: qtl).length : ℕ) : ℚ) * qtl.foldl min q := by ring
          _ ≤ (q :: qtl).sum := length_mul_le_sum _ _ hminmem
      · show (q :: qtl).sum / (((q :: qtl).length : ℕ) : ℚ) ≤ qtl.foldl max q
        rw [div_le_iff₀ hlen]
        calc (q :: qtl).sum
            ≤ (((q :: qtl).length : ℕ) : ℚ) * qtl.foldl max q := sum_le_length_mul _ _ hmaxmem
          _ = qtl.foldl max q * (((q :: qtl).length : ℕ) : ℚ) := by ring

/-- Witness for C10: a boundary crossing over an empty buffer appends
nothing, and the finite-sample bucket `[10, 12, 14]` satisfies
`min <= avg <= max`. -/
theorem c10_nonempty_finalization_witness :
    (updateReading
        { history := [], buffer := some { readings := [], minuteKey := 0 }, current := none }
        60000 (JVal.num 5)).history = [] ∧
    (jle (finalizeBuffer { readings := [JVal.num 10, JVal.num 12, JVal.num 14], minuteKey := 0 }).min
        (finalizeBuffer { readings := [JVal.num 10, JVal.num 12, JVal.num 14], minuteKey := 0 }).avg ∧
      jle (finalizeBuffer { readings := [JVal.num 10, JVal.num 12, JVal.num 14], minuteKey := 0 }).avg
        (finalizeBuffer { readings := [JVal.num 10, JVal.num 12, JVal.num 14], minuteKey := 0 }).max) := by
  have h1 := c10_nonempty_finalization
    { history := [], buffer := some { readings := [], minuteKey := 0 }, current := none }
    { readings := [], minuteKey := 0 } 60000 (JVal.num 5) rfl
  have h2 := c10_nonempty_finalization
    { history := [], buffer := some { readings := [JVal.num 10, JVal.num 12, JVal.num 14], minuteKey := 0 }, current := none }
    { readings := [JVal.num 10, JVal.num 12, JVal.num 14], minuteKey := 0 } 60000 (JVal.num 5) rfl
  exact ⟨h1.1 rfl, h2.2.2 [10, 12, 14] rfl (by decide)⟩

/-- C1 counterexample: a reading whose minute key (3) is earlier than the
open bucket's key (5) is *not* discarded — both the history and the open
bucket change. -/
theorem c1_counterexample :
    getMinuteKey 180000 < 5 ∧
    (updateReading
        { history := [], buffer := some { readings := [JVal.num 5], minuteKey := 5 }, current := none }
        180000 (JVal.num 7)).history ≠
      ({ history := [], buffer := some { readings := [JVal.num 5], minuteKey := 5 }, current := none } : HistState).history ∧
    (updateReading
        { history := [], buffer := some { readings := [JVal.num 5], minuteKey := 5 }, current := none }
        180000 (JVal.num 7)).buffer ≠
      ({ history := [], buffer := some { readings := [JVal.num 5], minuteKey := 5 }, current := none } : HistState).buffer := by
  exact ⟨by decide, by decide, by decide⟩

/-- C1 (amended): a reading whose minute key is earlier than the open
bucket's key is treated like any other boundary crossing, not discarded.
With samples accumulated, the open bucket is finalized and appended (its
`bucket_start` being *later* than the newly opened bucket's key — an
ordering violation relative to the next append), and a new bucket keyed
by the earlier minute key is opened holding exactly this sample.  With an
empty buffer the sample is accumulated and the buffer re-keyed to the
earlier minute; only in that case is history untouched. -/
theorem c1_out_of_order_not_discarded (st : HistState) (buf : Buffer) (ts : ℕ) (v : JVal)
    (hb : st.buffer = some buf) (hlt : getMinuteKey ts < buf.minuteKey) :
    (buf.readings ≠ [] →
      (updateReading st ts v).history.getLast? = some (finalizeBuffer buf) ∧
      (updateReading st ts v).buffer =
        some { readings := [v], minuteKey := getMinuteKey ts } ∧
      getMinuteKey ts * 60000 < (finalizeBuffer buf).timestamp) ∧
    (buf.readings = [] →
      (updateReading st ts v).history = st.history ∧
      (updateReading st ts v).buffer =
        some { readings := [v], minuteKey := getMinuteKey ts }) := by
  have hk : getMinuteKey ts ≠ buf.minuteKey := Nat.ne_of_lt hlt
  constructor
  · intro hr
    rw [updateReading_finalize st buf ts v hb hk hr]
    refine ⟨getLast?_trim st.history (finalizeBuffer buf), rfl, ?_⟩
    show getMinuteKey ts * 60000 < buf.minuteKey * 60000
    exact Nat.mul_lt_mul_of_lt_of_le hlt (le_refl _) (by norm_num)
  · intro hr
    rw [updateReading_accumulate st buf ts v hb (Or.inr hr), hr]
    exact ⟨rfl, by simp⟩

/-- Witness for C1 (amended) at the counterexample's input: the bucket
keyed at minute 5 is finalized and appended, and the new open bucket is
keyed at the earlier minute 3. -/
theorem c1_out_of_order_not_discarded_witness :
    (updateReading
        { history := [], buffer := some { readings := [JVal.num 5], minuteKey := 5 }, current := none }
        180000 (JVal.num 7)).history.getLast? =
      some (finalizeBuffer { readings := [JVal.num 5], minuteKey := 5 }) ∧
    (updateReading
        { history := [], buffer := some { readings := [JVal.num 5], minuteKey := 5 }, current := none }
        180000 (JVal.num 7)).buffer =
      some { readings := [JVal.num 7], minuteKey := 3 } ∧
    3 * 60000 < (finalizeBuffer { readings := [JVal.num 5], minuteKey := 5 }).timestamp := by
  have h := c1_out_of_order_not_discarded
    { history := [], buffer := some { readings := [JVal.num 5], minuteKey := 5 }, current := none }
    { readings := [JVal.num 5], minuteKey := 5 } 180000 (JVal.num 7) rfl (by decide)
  exact h.1 (by decide)

/-- C4 counterexample: ingesting a non-finite (`NaN`) value in the open
bucket's own minute is *not* dropped — it is appended to the accumulated
samples and turns the open bucket's running average into `NaN`. -/
theorem c4_counterexample :
    (updateReading
        { history := [], buffer := some { readings := [JVal.num 5], minuteKey := 0 }, current := none }
        30000 JVal.nan).buffer =
      some { readings := [JVal.num 5, JVal.nan], minuteKey := 0 } ∧
    (jdivNat (jsum [JVal.num 5, JVal.nan]) 2).isNan = true ∧
    (jdivNat (jsum [JVal.num 5]) 1).isNan = false := by
  exact ⟨by decide, by decide, by decide⟩

/-- C4 (amended): ingestion never fails (it is a total state transformer)
but does not filter values: *every* value — finite or `NaN` — ends up as
the newest accumulated sample of the open bucket, and a reading in the
open bucket's own minute appends its value to the buffer (leaving history
untouched) whether or not the value is finite.  (Missing values and
missing timestamps are screened out by the caller in `Dashboard`, not by
ingestion.) -/
theorem c4_ingest_accumulates_all (st : HistState) (ts : ℕ) (v : JVal) :
    (∃ buf : Buffer, (updateReading st ts v).buffer = some buf ∧
      buf.readings.getLast? = some v) ∧
    (∀ buf : Buffer, st.buffer = some buf → getMinuteKey ts = buf.minuteKey →
      (updateReading st ts v).buffer =
        some { readings := buf.readings ++ [v], minuteKey := buf.minuteKey } ∧
      (updateReading st ts v).history = st.history) := by
  constructor
  · cases hb : st.buffer with
    | none =>
        rw [updateReading_noBuffer st ts v hb]
        exact ⟨_, rfl, rfl⟩
    | some buf =>
        by_cases hc : getMinuteKey ts ≠ buf.minuteKey ∧ buf.readings ≠ []
        · rw [updateReading_finalize st buf ts v hb hc.1 hc.2]
          exact ⟨_, rfl, rfl⟩
        · have h' : getMinuteKey ts = buf.minuteKey ∨ buf.readings = [] := by
            rcases not_and_or.mp hc with h | h
            · exact Or.inl (not_not.mp h)
            · exact Or.inr (not_not.mp h)
          rw [updateReading_accumulate st buf ts v hb h']
          exact ⟨_, rfl, List.getLast?_concat _⟩
  · intro buf hb hk
    rw [updateReading_accumulate st buf ts v hb (Or.inl hk), hk]
    exact ⟨rfl, rfl⟩

/-- Witness for C4 (amended): the `NaN` sample of the counterexample is
appended to the open bucket and the history is untouched. -/
theorem c4_ingest_accumulates_all_witness :
    (∃ buf : Buffer,
      (updateReading
          { history := [], buffer := some { readings := [JVal.num 5], minuteKey := 0 }, current := none }
          30000 JVal.nan).buffer = some buf ∧
      buf.readings.getLast? = some JVal.nan) ∧
    (updateReading
        { history := [], buffer := some { readings := [JVal.num 5], minuteKey := 0 }, current := none }
        30000 JVal.nan).buffer =
      some { readings := [JVal.num 5] ++ [JVal.nan], minuteKey := 0 } ∧
    (updateReading
        { history := [], buffer := some { readings := [JVal.num 5], minuteKey := 0 }, current := none }
        30000 JVal.nan).history = [] := by
  have h := c4_ingest_accumulates_all
    { history := [], buffer := some { readings := [JVal.num 5], minuteKey := 0 }, current := none }
    30000 JVal.nan
  have h2 := h.2 { readings := [JVal.num 5], minuteKey := 0 } rfl (by decide)
  exact ⟨h.1, h2.1, h2.2⟩

/-- C9 counterexample: seeding with a single bucket whose `min`/`max`
differ from its `avg` and reading the chart data back does *not* return
that bucket — the last seeded point is re-exposed as the live point with
`min = max = avg`. -/
theorem c9_counterexample :
    dataPoints (seedLocation [{ timestamp := 0, avg := JVal.num 1, min := JVal.num 0, max := JVal.num 2 }] 7) =
      [{ timestamp := 0, avg := JVal.num 1, min := JVal.num 1, max := JVal.num 1 }] ∧
    ([{ timestamp := 0, avg := JVal.num 1, min := JVal.num 1, max := JVal.num 1 }] : List Bucket) ≠
      [{ timestamp := 0, avg := JVal.num 1, min := JVal.num 0, max := JVal.num 2 }] := by
  exact ⟨by decide, by decide⟩

/-- C9 (amended): seeding with buckets `init ++ [b]` before any ingestion
and reading the chart data back returns the seeded sequence in order with
timestamps and `avg` values unchanged, except that (i) the preceding
entries `init` are trimmed to the most recent `HISTORY_MINUTES` when
longer, and (ii) the final bucket `b` is re-exposed as the live point:
its `avg` is preserved but its `min` and `max` are replaced by `b.avg`.
Seeding with an empty list yields empty data. -/
theorem c9_seed_roundtrip (init : List Bucket) (b : Bucket) (k : ℕ) :
    dataPoints (seedLocation (init ++ [b]) k) =
      (if HISTORY_MINUTES < init.length
       then init.drop (init.length - HISTORY_MINUTES)
       else init) ++
      [{ timestamp := b.timestamp, avg := b.avg, min := b.avg, max := b.avg }] ∧
    dataPoints (seedLocation [] k) = [] := by
  constructor
  · unfold seedLocation
    rw [if_pos (by simp)]
    simp only [List.dropLast_concat, List.getLast?_concat, Option.map_some']
    unfold dataPoints
    simp
  · rfl

/-! ### Rate estimator -/

theorem calculateRateArray_short (avgs : List (Option JVal))
    (h : avgs.length < RATE_LOOKBACK_MINUTES + 1) :
    calculateRateArray avgs = avgs.map (fun _ => none) := by
  unfold calculateRateArray
  rw [if_pos h]

theorem calculateRateArray_long (avgs : List (Option JVal))
    (h : ¬ avgs.length < RATE_LOOKBACK_MINUTES + 1) :
    calculateRateArray avgs = avgs.mapIdx (fun i a =>
      if i < RATE_LOOKBACK_MINUTES then none
      else
        match a with
        | none => none
        | some cur =>
            match avgs.getD (i - RATE_LOOKBACK_MINUTES) none with
            | none => none
            | some past =>
                some (jdivQ (jsub cur past) ((RATE_LOOKBACK_MINUTES : ℚ) / 60))) := by
  unfold calculateRateArray
  rw [if_neg h]

/-- C5: the pre-computed rate series agrees pointwise with the
specification's `rate_at` formula — entry `i` is
`(points[i].avg - points[i-5].avg) / (5/60)` — it has exactly the length
of its input, it is absent (`none`, not zero) for every index below the
lookback, and it is absent whenever either endpoint's `avg` is
missing. -/
theorem c5_rate_series (avgs : List (Option JVal)) :
    calculateRateArray avgs = (List.range avgs.length).map (rateAtSpec avgs) ∧
    (calculateRateArray avgs).length = avgs.length ∧
    (∀ j, j < RATE_LOOKBACK_MINUTES → rateAtSpec avgs j = none) ∧
    (∀ i, avgs.getD i none = none ∨ avgs.getD (i - RATE_LOOKBACK_MINUTES) none = none →
      rateAtSpec avgs i = none) := by
  have habsent : ∀ j, j < RATE_LOOKBACK_MINUTES → rateAtSpec avgs j = none := by
    intro j hj
    unfold rateAtSpec
    rw [if_pos hj]
  have hmissing : ∀ i,
      avgs.getD i none = none ∨ avgs.getD (i - RATE_LOOKBACK_MINUTES) none = none →
      rateAtSpec avgs i = none := by
    intro i hmiss
    unfold rateAtSpec
    split
    · rfl
    · rcases hmiss with hm | hm
      · rw [hm]
      · rw [hm]
        cases avgs.getD i none <;> rfl
  have hmain : calculateRateArray avgs = (List.range avgs.length).map (rateAtSpec avgs) := by
    rcases lt_or_ge avgs.length (RATE_LOOKBACK_MINUTES + 1) with hshort | hlong
    · rw [calculateRateArray_short avgs hshort]
      apply List.ext_get (by simp)
      intro i h1 h2
      rw [List.get_map, List.get_map, List.get_range]
      have hi : i < avgs.length := by simpa using h1
      exact (habsent i (by omega)).symm
    · rw [calculateRateArray_long avgs (not_lt.mpr hlong)]
      apply List.ext_get (by simp [List.length_mapIdx])
      intro i h1 h2
      have hi : i < avgs.length := by
        simpa [List.length_mapIdx] using h1
      rw [List.get_mapIdx _ _ _ hi, List.get_map, List.get_range]
      show (if i < RATE_LOOKBACK_MINUTES then none
        else
          match avgs.get ⟨i, hi⟩ with
          | none => none
          | some cur =>
              match avgs.getD (i - RATE_LOOKBACK_MINUTES) none with
              | none => none
              | some past =>
                  some (jdivQ (jsub cur past) ((RATE_LOOKBACK_MINUTES : ℚ) / 60))) =
        rateAtSpec avgs i
      unfold rateAtSpec
      have hD : avgs.getD i none = avgs.get ⟨i, hi⟩ := by
        rw [List.getD_eq_getElem avgs none hi]
        rfl
      rw [hD]
      by_cases hi5 : i < RATE_LOOKBACK_MINUTES
      · rw [if_pos hi5, if_pos hi5]
      · rw [if_neg hi5, if_neg hi5]
        cases avgs.get ⟨i, hi⟩ <;>
          cases avgs.getD (i - RATE_LOOKBACK_MINUTES) none <;> rfl
  have hlen : (calculateRateArray avgs).length = avgs.length := by
    rw [hmain]
    simp
  exact ⟨hmain, hlen, habsent, hmissing⟩

/-- Witness for C5: on a six-point series whose endpoints are `68` and
`70`, the rate at index 5 is `(70 - 68) / (5/60) = 24` units per hour,
indices below the lookback are absent, and a missing endpoint gives an
absent rate. -/
theorem c5_rate_series_witness :
    calculateRateArray
        [some (JVal.num 68), some (JVal.num 1), some (JVal.num 2), some (JVal.num 3),
          some (JVal.num 4), some (JVal.num 70)] =
      (List.range 6).map (rateAtSpec
        [some (JVal.num 68), some (JVal.num 1), some (JVal.num 2), some (JVal.num 3),
          some (JVal.num 4), some (JVal.num 70)]) ∧
    rateAtSpec
        [some (JVal.num 68), some (JVal.num 1), some (JVal.num 2), some (JVal.num 3),
          some (JVal.num 4), some (JVal.num 70)] 5 = some (JVal.num 24) ∧
    rateAtSpec
        [some (JVal.num 68), some (JVal.num 1), some (JVal.num 2), some (JVal.num 3),
          some (JVal.num 4), some (JVal.num 70)] 4 = none ∧
    rateAtSpec [none, some (JVal.num 1), some (JVal.num 2), some (JVal.num 3),
          some (JVal.num 4), some (JVal.num 70)] 5 = none := by
  have h := c5_rate_series
    [some (JVal.num 68), some (JVal.num 1), some (JVal.num 2), some (JVal.num 3),
      some (JVal.num 4), some (JVal.num 70)]
  have h2 := c5_rate_series
    [none, some (JVal.num 1), some (JVal.num 2), some (JVal.num 3),
      some (JVal.num 4), some (JVal.num 70)]
  refine ⟨h.1, ?_, h.2.2.1 4 (by decide), h2.2.2.2 5 (Or.inr (by decide))⟩
  show rateAtSpec _ 5 = some (JVal.num 24)
  norm_num [rateAtSpec, RATE_LOOKBACK_MINUTES, List.getD, jdivQ, jsub]

/-- C6 counterexample: `formatRate 24.0` renders the *per-minute* form
(showing `24/60 = 0.4`), not the per-hour form, because `|24| > 10`. -/
theorem c6_counterexample :
    formatRate (some (JVal.num 24)) =
      { form := RateForm.perMinute, shown := some (2/5), arrowUp := some true,
        className := "heating" } ∧
    RateForm.perMinute ≠ RateForm.perHour := by
  constructor
  · norm_num [formatRate]
  · decide

/-- C6 (amended): `formatRate` renders an absent or `NaN` rate as the
neutral "stable" form; any rate with `|rate| < 0.5` as "stable" even when
nonzero; any rate with `0.5 <= |rate| <= 10` in the per-hour form with
the sign's arrow and class; and any rate with `|rate| > 10` in the
per-minute form showing `rate/60` — so `formatRate 24.0` renders
per-minute (`0.4`/min), `formatRate 15.0` renders per-minute
(`0.25`/min), and `formatRate 0.3` renders "stable". -/
theorem c6_format_rate (q : ℚ) :
    formatRate none = { form := RateForm.stable, shown := none, arrowUp := none, className := "stable" } ∧
    formatRate (some JVal.nan) = { form := RateForm.stable, shown := none, arrowUp := none, className := "stable" } ∧
    (|q| < 1/2 →
      formatRate (some (JVal.num q)) =
        { form := RateForm.stable, shown := none, arrowUp := none, className := "stable" }) ∧
    (1/2 ≤ |q| → |q| ≤ 10 →
      formatRate (some (JVal.num q)) =
        { form := RateForm.perHour, shown := some q, arrowUp := some (decide (q > 0)),
          className := if q > 0 then "heating" else "cooling" }) ∧
    (10 < |q| →
      formatRate (some (JVal.num q)) =
        { form := RateForm.perMinute, shown := some (q / 60), arrowUp := some (decide (q > 0)),
          className := if q > 0 then "heating" else "cooling" }) := by
  refine ⟨rfl, rfl, ?_, ?_, ?_⟩
  · intro h
    simp only [formatRate]
    rw [if_pos h]
  · intro h1 h2
    simp only [formatRate]
    rw [if_neg (not_lt.mpr h1), if_neg (not_lt.mpr h2)]
  · intro h
    simp only [formatRate]
    rw [if_neg (not_lt.mpr (le_trans (by norm_num) (le_of_lt h))), if_pos h]

/-- Witness for C6 (amended): `formatRate 15.0` renders per-minute
showing `0.25`, and `formatRate 0.3` renders "stable". -/
theorem c6_format_rate_witness :
    formatRate (some (JVal.num 15)) =
      { form := RateForm.perMinute, shown := some (1/4), arrowUp := some true,
        className := "heating" } ∧
    formatRate (some (JVal.num (3/10))) =
      { form := RateForm.stable, shown := none, arrowUp := none, className := "stable" } := by
  constructor
  · rw [(c6_format_rate 15).2.2.2.2 (by rw [abs_of_pos] <;> norm_num)]
    norm_num
  · exact (c6_format_rate (3/10)).2.2.1 (by rw [abs_of_pos] <;> norm_num)

/-! ### Thermal energy-flow model -/

/-- C7 counterexample: with the mandatory room temperature missing the
snapshot is invalid, but `heater_input` is *not* absent — it is the
number `0` even while the heater is on (the field can never be absent),
so "all numeric output fields absent" fails. -/
theorem c7_counterexample :
    (calculateEnergyFlow (some 150) none none none none true false 1400).valid = false ∧
    (calculateEnergyFlow (some 150) none none none none true false 1400).heaterInput = 0 := by
  exact ⟨rfl, rfl⟩

/-- C7 (amended): when either mandatory input (tank or room temperature)
is missing, the snapshot is `valid = false` with every *nullable* numeric
field absent, while `heater_input` — which is never absent — reads `0`.
When both are present the snapshot is `valid = true` and each other
computed field is individually absent exactly when one of its own
required inputs is missing: `tank_loss`, `tank_to_room_delta` and
`max_capacity_delta` are always present, the `outside`-dependent fields
(`building_loss`, `room_to_outside_delta`, `is_keeping_up`) are present
iff `outside` is, the `floor`-dependent fields (`floor_output`,
`floor_to_room_delta`, `bottleneck_watts`) are present iff `floor` is,
`tank_accumulation` is present iff the tank rate is, and `water_to_floor`
is present iff the pump is off or the tank rate is present. -/
theorem c7_validity_contract (tank floor room outside rate : Option ℚ)
    (heaterOn pumpOn : Bool) (power tk rm : ℚ) :
    ((tank = none ∨ room = none) →
      calculateEnergyFlow tank floor room outside rate heaterOn pumpOn power =
        { heaterInput := 0, tankAccumulation := none, tankLoss := none, floorOutput := none,
          buildingLoss := none, waterToFloor := none, tankToAmbientDeltaF := none,
          floorToRoomDeltaF := none, roomToOutsideDeltaF := none, heaterOn := heaterOn,
          pumpOn := pumpOn, valid := false, maxCapacityDeltaF := none, isKeepingUp := none,
          bottleneckWatts := none }) ∧
    (tank = some tk → room = some rm →
      (calculateEnergyFlow tank floor room outside rate heaterOn pumpOn power).valid = true ∧
      (calculateEnergyFlow tank floor room outside rate heaterOn pumpOn power).tankLoss.isSome = true ∧
      (calculateEnergyFlow tank floor room outside rate heaterOn pumpOn power).tankToAmbientDeltaF.isSome = true ∧
      (calculateEnergyFlow tank floor room outside rate heaterOn pumpOn power).maxCapacityDeltaF.isSome = true ∧
      (calculateEnergyFlow tank floor room outside rate heaterOn pumpOn power).buildingLoss.isSome = outside.isSome ∧
      (calculateEnergyFlow tank floor room outside rate heaterOn pumpOn power).roomToOutsideDeltaF.isSome = outside.isSome ∧
      (calculateEnergyFlow tank floor room outside rate heaterOn pumpOn power).isKeepingUp.isSome = outside.isSome ∧
      (calculateEnergyFlow tank floor room outside rate heaterOn pumpOn power).floorOutput.isSome = floor.isSome ∧
      (calculateEnergyFlow tank floor room outside rate heaterOn pumpOn power).floorToRoomDeltaF.isSome = floor.isSome ∧
      (calculateEnergyFlow tank floor room outside rate heaterOn pumpOn power).bottleneckWatts.isSome = floor.isSome ∧
      (calculateEnergyFlow tank floor room outside rate heaterOn pumpOn power).tankAccumulation.isSome = rate.isSome ∧
      (calculateEnergyFlow tank floor room outside rate heaterOn pumpOn power).waterToFloor.isSome = (!pumpOn || rate.isSome)) := by
  constructor
  · rintro (rfl | rfl)
    · rfl
    · cases tank <;> rfl
  · rintro rfl rfl
    cases floor <;> cases outside <;> cases rate <;> cases pumpOn <;>
      simp [calculateEnergyFlow]

/-- Witness for C7 (amended): the spec's concrete instance — tank `150`,
room `70`, outside missing — is valid with `building_loss` absent while
`tank_loss` and `tank_to_room_delta` are present; with room missing the
snapshot is the all-absent invalid record. -/
theorem c7_validity_contract_witness :
    (calculateEnergyFlow (some 150) none (some 70) none none false false 1400).valid = true ∧
    (calculateEnergyFlow (some 150) none (some 70) none none false false 1400).buildingLoss.isSome = (none : Option ℚ).isSome ∧
    (calculateEnergyFlow (some 150) none (some 70) none none false false 1400).tankLoss.isSome = true ∧
    (calculateEnergyFlow (some 150) none (some 70) none none false false 1400).tankToAmbientDeltaF.isSome = true ∧
    calculateEnergyFlow (some 150) none none none none true false 1400 =
      { heaterInput := 0, tankAccumulation := none, tankLoss := none, floorOutput := none,
        buildingLoss := none, waterToFloor := none, tankToAmbientDeltaF := none,
        floorToRoomDeltaF := none, roomToOutsideDeltaF := none, heaterOn := true,
        pumpOn := false, valid := false, maxCapacityDeltaF := none, isKeepingUp := none,
        bottleneckWatts := none } := by
  have h1 := c7_validity_contract (some 150) none (some 70) none none false false 1400 150 70
  have h2 := (c7_validity_contract (some 150) none none none none true false 1400 150 70).1
    (Or.inr rfl)
  have h1v := h1.2 rfl rfl
  exact ⟨h1v.1, h1v.2.2.2.2.1, h1v.2.1, h1v.2.2.1, h2⟩

/-- C8 counterexample: with the pump off but the mandatory tank
temperature missing, `water_to_floor` is absent, not `0` — the pump-off
clamp only applies to a valid snapshot. -/
theorem c8_counterexample :
    (calculateEnergyFlow none none (some 70) none none true false 1400).waterToFloor = none ∧
    (none : Option ℚ) ≠ some 0 := by
  exact ⟨rfl, by decide⟩

/-- C8 (amended): on a *valid* snapshot (tank and room present), pump off
forces `water_to_floor = 0` regardless of heater state, heater power,
floor/outside readings, and the sign or presence of the tank rate; with
the pump on and the tank rate present, `water_to_floor` is
`heater_input - tank_accumulation - tank_loss` clamped below at zero.
When either mandatory input is missing, `water_to_floor` is absent even
with the pump off. -/
theorem c8_pump_off_clamp (floor outside rate : Option ℚ) (heaterOn : Bool)
    (power tk rm r : ℚ) :
    (calculateEnergyFlow (some tk) floor (some rm) outside rate heaterOn false power).waterToFloor = some 0 ∧
    (rate = some r →
      (calculateEnergyFlow (some tk) floor (some rm) outside rate heaterOn true power).waterToFloor =
        some (if (if heaterOn then power else 0)
                - TANK_THERMAL_MASS_J_PER_C * ((r / (9/5)) / 3600)
                - TANK_LOSS_COEFFICIENT_W_PER_C * ((tk - rm) / (9/5)) < 0 then 0
              else (if heaterOn then power else 0)
                - TANK_THERMAL_MASS_J_PER_C * ((r / (9/5)) / 3600)
                - TANK_LOSS_COEFFICIENT_W_PER_C * ((tk - rm) / (9/5)))) ∧
    (∀ tank room : Option ℚ, tank = none ∨ room = none →
      (calculateEnergyFlow tank floor room outside rate heaterOn false power).waterToFloor = none) := by
  refine ⟨?_, ?_, ?_⟩
  · simp [calculateEnergyFlow]
  · rintro rfl
    simp [calculateEnergyFlow]
  · rintro tank room (rfl | rfl)
    · rfl
    · cases tank <;> rfl

/-- Witness for C8 (amended): tank `150`, room `70`, heater on at
`1400` W, pump off gives `water_to_floor = 0`; switching the pump on with
a zero tank rate gives `1400 - 0 - 120 = 1280` W. -/
theorem c8_pump_off_clamp_witness :
    (calculateEnergyFlow (some 150) none (some 70) none (some 0) true false 1400).waterToFloor = some 0 ∧
    (calculateEnergyFlow (some 150) none (some 70) none (some 0) true true 1400).waterToFloor = some 1280 := by
  have h := c8_pump_off_clamp none none (some 0) true 1400 150 70 0
  refine ⟨h.1, ?_⟩
  rw [h.2.1 rfl]
  norm_num [TANK_THERMAL_MASS_J_PER_C, TANK_LOSS_COEFFICIENT_W_PER_C]

end Sagrada
